import Mathlib

/-!
Verification development for the TritonRepAnalizer report generator
(`HTMLGENERATOR.PY`).  The Python script is shallowly embedded below:
pure string-processing functions become Lean functions on `String`
(internally `List Char`), Python `float` arithmetic is modelled by exact
rationals (`PyQ`, an integer numerator/denominator pair — every float the
script manipulates is a short decimal, far below the binary64 precision
where the exact and floating readings could diverge),
`int(...)`/`float(...)` parsing failures (ValueError) become `Option`,
and the one place where an exception can escape uncaught
(`format_entry`'s `int()` calls) propagates as `Option` through the
merge pipeline.  External effects (YouTube metadata fetch, file I/O,
template rendering, the GitHub API) are parameters or abstract outcomes.
-/

/-! ## Python string primitives -/

/-- Characters treated as whitespace by Python's `str.strip()` / `\s`. -/
def pyWs (c : Char) : Bool :=
  c = ' ' || c = '\t' || c = '\n' || c = '\r' || c = '\x0b' || c = '\x0c'

/-- Bracket characters, the argument of `str.strip('[]')`. -/
def isBr (c : Char) : Bool := c = '[' || c = ']'

/-- ASCII digit test (the only digits appearing in this pipeline's data). -/
def isDigitCh (c : Char) : Bool := 48 ≤ c.toNat && c.toNat ≤ 57

/-- Drop trailing characters satisfying `p` (right half of `str.strip`). -/
def dropTrail (p : Char → Bool) (l : List Char) : List Char :=
  (l.reverse.dropWhile p).reverse

/-- Python `str.strip(<set>)`: drop leading and trailing characters in the set. -/
def stripBoth (p : Char → Bool) (l : List Char) : List Char :=
  dropTrail p (l.dropWhile p)

/-- Python `s.strip()` (no argument: whitespace). -/
def pyStripWs (s : String) : String := ⟨stripBoth pyWs s.data⟩

/-- Python `s.strip('[]')`. -/
def pyStripBrackets (s : String) : String := ⟨stripBoth isBr s.data⟩

/-- Python `s.lower()` (ASCII range, the only case-carrying data here). -/
def pyLower (s : String) : String := ⟨s.data.map Char.toLower⟩

/-- Python `c in s` for a single character. -/
def charIn (c : Char) : List Char → Bool
  | [] => false
  | a :: as => if a = c then true else charIn c as

/-- Python `s.split(sep)` for a one-character separator. -/
def splitChar (sep : Char) : List Char → List (List Char)
  | [] => [[]]
  | c :: cs =>
    if c = sep then [] :: splitChar sep cs
    else
      match splitChar sep cs with
      | [] => [[c]]
      | r :: rs => (c :: r) :: rs

/-- Python `s.split(sep)` lifted to `String`. -/
def pySplit (sep : Char) (s : String) : List String :=
  (splitChar sep s.data).map fun l => ⟨l⟩

/-- `startsWithCL n l` : `n` is a leading segment of `l`. -/
def startsWithCL : List Char → List Char → Bool
  | [], _ => true
  | _ :: _, [] => false
  | a :: as, b :: bs => a = b && startsWithCL as bs

/-- `containsSub n l` : `n` occurs contiguously inside `l`. -/
def containsSub (n : List Char) : List Char → Bool
  | [] => startsWithCL n []
  | c :: cs => startsWithCL n (c :: cs) || containsSub n cs

/-- Python `needle in hay` for strings. -/
def occursIn (needle hay : String) : Bool := containsSub needle.data hay.data

/-- Drop a literal leading segment, returning the remainder on success. -/
def dropLit : List Char → List Char → Option (List Char)
  | [], l => some l
  | _ :: _, [] => none
  | a :: as, b :: bs => if a = b then dropLit as bs else none

/-! ## Python numeric parsing and formatting -/

/-- Numeric value of an ASCII digit character. -/
def digitVal (c : Char) : Nat := c.toNat - 48

/-- Value of a digit string (most significant first). -/
def digitsToNat (l : List Char) : Nat := l.foldl (fun a c => 10 * a + digitVal c) 0

/-- Core of Python `int(str)`: optional sign then one or more digits
(whitespace already stripped; underscore grouping not used by this data). -/
def pyIntCore (l : List Char) : Option Int :=
  match l with
  | [] => none
  | c :: ds =>
    if c = '+' then
      if ds ≠ [] ∧ ds.all isDigitCh then some (digitsToNat ds) else none
    else if c = '-' then
      if ds ≠ [] ∧ ds.all isDigitCh then some (-(digitsToNat ds : Int)) else none
    else if (c :: ds).all isDigitCh then some (digitsToNat (c :: ds)) else none

/-- Python `int(s)`: `none` models the `ValueError`. -/
def pyInt (s : String) : Option Int := pyIntCore (stripBoth pyWs s.data)

/-- Exact value of a Python float: numerator over (positive) denominator.
Every construction below uses a power-of-ten denominator. -/
structure PyQ where
  num : Int
  den : Int
deriving DecidableEq

/-- Core of Python `float(str)` on the decimal shapes this pipeline feeds it:
`[sign] digits [. digits]` or `[sign] . digits` (exponent / `inf` / `nan`
spellings never arise from the bracketed-number regexes that call it). -/
def pyFloatCore (l : List Char) : Option PyQ :=
  let body : List Char → Option PyQ := fun m =>
    let ip := m.takeWhile isDigitCh
    let rest := m.drop ip.length
    match rest with
    | [] => if ip ≠ [] then some ⟨(digitsToNat ip : Int), 1⟩ else none
    | '.' :: fp =>
      if fp.all isDigitCh ∧ (ip ≠ [] ∨ fp ≠ []) then
        some ⟨(digitsToNat ip : Int) * (10 : Int) ^ fp.length + (digitsToNat fp : Int),
              (10 : Int) ^ fp.length⟩
      else none
    | _ => none
  match l with
  | '+' :: m => body m
  | '-' :: m => (body m).map fun q => ⟨-q.num, q.den⟩
  | m => body m

/-- Python `float(s)`: `none` models the `ValueError`. -/
def pyFloat (s : String) : Option PyQ := pyFloatCore (stripBoth pyWs s.data)

/-- Python float `q // m` for an integer `m` (floor division; the result is
an integral float, represented with denominator 1). -/
def pyFloorDiv (q : PyQ) (m : Int) : PyQ := ⟨q.num.fdiv (q.den * m), 1⟩

/-- Python float `q % m` : `q - m * (q // m)` (same denominator). -/
def pyModQ (q : PyQ) (m : Int) : PyQ :=
  ⟨q.num - m * q.den * q.num.fdiv (q.den * m), q.den⟩

/-- Python `int(float)`: truncation toward zero (`Int.tdiv` is T-division). -/
def qTrunc (q : PyQ) : Int := q.num.tdiv q.den

/-- Decimal digits of `n`, most significant first (fuel-structured so the
kernel can evaluate it; `fuel = n + 1` always suffices). -/
def natStrAux : Nat → Nat → List Char
  | 0, _ => []
  | fuel + 1, n =>
    if n < 10 then [Nat.digitChar n]
    else natStrAux fuel (n / 10) ++ [Nat.digitChar (n % 10)]

/-- Decimal digits of `n`, most significant first. -/
def natStrCL (n : Nat) : List Char := natStrAux (n + 1) n

/-- Python `f"{n:02d}"`: zero-pad to width 2 (the sign occupies a column). -/
def fmt02 (n : Int) : String :=
  if n < 0 then ⟨'-' :: natStrCL (-n).toNat⟩
  else if n < 10 then ⟨['0', Nat.digitChar n.toNat]⟩
  else ⟨natStrCL n.toNat⟩

/-! ## `process_timestamp` (HTMLGENERATOR.PY lines 77-99) -/

/-- `process_timestamp`: convert any timestamp format to `HH:MM:SS`.
Mirrors the Python exactly: empty input → `None`; strip `[]`; colon forms
re-format each `int(part)`; otherwise `float` then floor-div/mod into
H/M/S; any `ValueError` is caught and yields `None`. -/
def process_timestamp (timestamp_str : String) : Option String :=
  if timestamp_str = "" then none
  else
    let t := pyStripBrackets timestamp_str
    if charIn ':' t.data then
      match pySplit ':' t with
      | [p0, p1, p2] =>
        match pyInt p0, pyInt p1, pyInt p2 with
        | some a, some b, some c => some (fmt02 a ++ ":" ++ fmt02 b ++ ":" ++ fmt02 c)
        | _, _, _ => none
      | [p0, p1] =>
        match pyInt p0, pyInt p1 with
        | some a, some b => some ("00:" ++ fmt02 a ++ ":" ++ fmt02 b)
        | _, _ => none
      | _ => none
    else
      match pyFloat t with
      | none => none
      | some q =>
        let hours := qTrunc (pyFloorDiv q 3600)
        let minutes := qTrunc (pyFloorDiv (pyModQ q 3600) 60)
        let seconds := qTrunc (pyModQ q 60)
        some (fmt02 hours ++ ":" ++ fmt02 minutes ++ ":" ++ fmt02 seconds)

/-! ## `create_timestamp_map` (lines 101-111) -/

/-- One transcript record: `{"text": ..., "true_video_timestamp": ...}`;
the timestamp key may be absent (`none`). -/
structure TranscriptEntry where
  text : String
  true_video_timestamp : Option String
deriving DecidableEq

/-- Python truthiness of `entry.get('true_video_timestamp')`:
absent and empty both count as false. -/
def truthyOpt : Option String → Bool
  | none => false
  | some s => s ≠ ""

/-- `dict[k] = v` on an insertion-ordered association list. -/
def updateAssoc (m : List (String × String)) (k v : String) : List (String × String) :=
  if m.any (fun p => p.1 = k) then m.map (fun p => if p.1 = k then (k, v) else p)
  else m ++ [(k, v)]

/-- `dict.get(k)` on an association list. -/
def lookupAssoc (m : List (String × String)) (k : String) : Option String :=
  (m.find? (fun p => p.1 = k)).map (fun p => p.2)

/-- `create_timestamp_map`: text (stripped, lowercased) → normalized
timestamp, last-write-wins, built from entries whose raw timestamp is
truthy, normalizes successfully, and whose cleaned text is nonempty. -/
def create_timestamp_map (transcript : List TranscriptEntry) : List (String × String) :=
  transcript.foldl
    (fun m e =>
      if truthyOpt e.true_video_timestamp then
        match process_timestamp (e.true_video_timestamp.getD "") with
        | none => m
        | some clean_timestamp =>
          let text := pyLower (pyStripWs e.text)
          if text = "" then m else updateAssoc m text clean_timestamp
      else m)
    []

/-! ## `clean_text_content` (lines 113-140)

Each `re.sub` becomes a left-to-right scan (`scanSub`) with a bespoke
matcher for its pattern.  Every matcher consumes at least one character on
success, so fuel `length + 1` is exact Python `re.sub` semantics
(non-overlapping leftmost matches, no rescan of replacement text). -/

/-- One `re.sub` pass: at each position try the matcher (which returns the
replacement text and the remaining input after the match); on failure keep
one character and move on. -/
def scanSubA (f : List Char → Option (List Char × List Char)) :
    Nat → List Char → List Char
  | _, [] => []
  | 0, l => l
  | fuel + 1, c :: cs =>
    match f (c :: cs) with
    | some (rep, rest) => rep ++ scanSubA f fuel rest
    | none => c :: scanSubA f fuel cs

/-- `re.sub(pattern-as-matcher, ..., l)`. -/
def scanSub (f : List Char → Option (List Char × List Char)) (l : List Char) : List Char :=
  scanSubA f (l.length + 1) l

/-- Matcher for `\*\*([^\*]+)\*\*` with replacement `\1`. -/
def matchBold : List Char → Option (List Char × List Char)
  | '*' :: '*' :: rest =>
    let inner := rest.takeWhile (fun c => c ≠ '*')
    if inner = [] then none
    else
      match rest.drop inner.length with
      | '*' :: '*' :: rest2 => some (inner, rest2)
      | _ => none
  | _ => none

/-- Parse a literal `[dd:dd:dd]` token, returning the inner `dd:dd:dd`
and the remainder. -/
def tsTokenAt : List Char → Option (List Char × List Char)
  | '[' :: a :: b :: ':' :: c :: d :: ':' :: e :: f :: ']' :: rest =>
    if isDigitCh a && isDigitCh b && isDigitCh c && isDigitCh d &&
        isDigitCh e && isDigitCh f then
      some ([a, b, ':', c, d, ':', e, f], rest)
    else none
  | _ => none

/-- Lazy scan for `(.*?)\[\d{2}:\d{2}:\d{2}\]`: the shortest newline-free
span followed by a bracketed timestamp; returns (span, rest after token). -/
def dupScan : List Char → Option (List Char × List Char)
  | [] => none
  | c :: cs =>
    match tsTokenAt (c :: cs) with
    | some (_, rest2) => some ([], rest2)
    | none =>
      if c = '\n' then none
      else (dupScan cs).map (fun p => (c :: p.1, p.2))

/-- Matcher for `\[\d{2}:\d{2}:\d{2}\](.*?)\[\d{2}:\d{2}:\d{2}\]`
with replacement `\1`. -/
def matchDupTs (l : List Char) : Option (List Char × List Char) :=
  match tsTokenAt l with
  | none => none
  | some (_, rest) => dupScan rest

/-- Matcher for `at \d{2}:\d{2}:\d{2}` with replacement `''`. -/
def matchAtTs : List Char → Option (List Char × List Char)
  | 'a' :: 't' :: ' ' :: a :: b :: ':' :: c :: d :: ':' :: e :: f :: rest =>
    if isDigitCh a && isDigitCh b && isDigitCh c && isDigitCh d &&
        isDigitCh e && isDigitCh f then
      some ([], rest)
    else none
  | _ => none

/-- Matcher for `timestamp \d{2}:\d{2}:\d{2}` with replacement `''`. -/
def matchTsWord (l : List Char) : Option (List Char × List Char) :=
  match dropLit "timestamp ".data l with
  | none => none
  | some r =>
    match r with
    | a :: b :: ':' :: c :: d :: ':' :: e :: f :: rest =>
      if isDigitCh a && isDigitCh b && isDigitCh c && isDigitCh d &&
          isDigitCh e && isDigitCh f then
        some ([], rest)
      else none
    | _ => none

/-- Matcher for `\[(\d+\.?\d*)\]`, replaced by
`f'[{process_timestamp(m.group(1))}]'` (a failed normalization renders as
the literal text `None`, exactly as a Python f-string would print it). -/
def matchNumTs : List Char → Option (List Char × List Char)
  | '[' :: rest =>
    let ds := rest.takeWhile isDigitCh
    if ds = [] then none
    else
      let rest2 := rest.drop ds.length
      let dotPart : List Char × List Char :=
        match rest2 with
        | '.' :: r => (['.'], r)
        | _ => ([], rest2)
      let fs := dotPart.2.takeWhile isDigitCh
      match dotPart.2.drop fs.length with
      | ']' :: rest4 =>
        let grp : String := ⟨ds ++ dotPart.1 ++ fs⟩
        let repl : String :=
          match process_timestamp grp with
          | some t => "[" ++ t ++ "]"
          | none => "[None]"
        some (repl.data, rest4)
      | _ => none
  | _ => none

/-- Matcher for `\[TAG\]\s*\[TAG\]` with replacement `[TAG]`. -/
def matchDupTag (tag : List Char) (l : List Char) : Option (List Char × List Char) :=
  match dropLit tag l with
  | none => none
  | some rest =>
    match dropLit tag (rest.dropWhile pyWs) with
    | none => none
    | some rest3 => some (tag, rest3)

/-- Matcher for `\s+` with replacement `' '`. -/
def matchWsRun : List Char → Option (List Char × List Char)
  | [] => none
  | c :: cs => if pyWs c then some ([' '], (c :: cs).dropWhile pyWs) else none

/-- Matcher for `Key Moments?:?\s*` with replacement `''`. -/
def matchKeyM (l : List Char) : Option (List Char × List Char) :=
  match dropLit "Key Moment".data l with
  | none => none
  | some r =>
    let r1 := match r with
      | 's' :: t => t
      | _ => r
    let r2 := match r1 with
      | ':' :: t => t
      | _ => r1
    some ([], r2.dropWhile pyWs)

/-- Matcher for `Summary:?\s*` with replacement `''`. -/
def matchSummaryLbl (l : List Char) : Option (List Char × List Char) :=
  match dropLit "Summary".data l with
  | none => none
  | some r =>
    let r1 := match r with
      | ':' :: t => t
      | _ => r
    some ([], r1.dropWhile pyWs)

/-- `re.sub(r'^\d+\.\s*', '', text)` — anchored at the string start. -/
def stripLeadNum (l : List Char) : List Char :=
  let ds := l.takeWhile isDigitCh
  if ds = [] then l
  else
    match l.drop ds.length with
    | '.' :: rest => rest.dropWhile pyWs
    | _ => l

/-- `clean_text_content`: the full regex chain, in source order. -/
def clean_text_content (text : String) : String :=
  let t0 := scanSub matchBold text.data
  let t1 := scanSub matchDupTs t0
  let t2 := scanSub matchAtTs t1
  let t3 := scanSub matchTsWord t2
  let t4 := scanSub matchNumTs t3
  let t5 := scanSub (matchDupTag ("[ALL-IN]".data)) t4
  let t6 := scanSub (matchDupTag ("[ELIMINATION]".data)) t5
  let t7 := scanSub matchWsRun t6
  let t8 := scanSub matchKeyM t7
  let t9 := scanSub matchSummaryLbl t8
  let t10 := stripLeadNum t9
  ⟨stripBoth pyWs t10⟩

/-! ## `validate_timestamp` (lines 142-154) and `format_entry` (lines 156-166) -/

/-- `sum(int(x) * 60 ** i for i, x in enumerate(reversed(parts)))`,
starting at weight `60 ^ i`; `none` models the `ValueError` raised when
any component fails to parse as an int. -/
def colSum (i : Nat) : List String → Option Int
  | [] => some 0
  | x :: xs =>
    match pyInt x, colSum (i + 1) xs with
    | some v, some rest => some (v * (60 : Int) ^ i + rest)
    | _, _ => none

/-- Total seconds of a colon-separated timestamp string. -/
def secondsOfParts (parts : List String) : Option Int := colSum 0 parts.reverse

/-- `validate_timestamp`: both strings to total seconds, then the chained
comparison `0 <= ts_seconds <= dur_seconds`; any exception yields `False`. -/
def validate_timestamp (timestamp video_duration : String) : Bool :=
  match secondsOfParts (pySplit ':' timestamp), secondsOfParts (pySplit ':' video_duration) with
  | some ts_seconds, some dur_seconds => decide (0 ≤ ts_seconds ∧ ts_seconds ≤ dur_seconds)
  | _, _ => false

/-- `format_entry`: clean the text; with a falsy timestamp (absent or empty)
return just the cleaned text, otherwise build the YouTube link string.
`none` models the uncaught `ValueError` of `int()` on a malformed
timestamp — unreachable from the pipeline, which only passes timestamps it
produced itself. -/
def format_entry (text : String) (timestamp : Option String) (video_id : String) :
    Option String :=
  let cleaned_text := clean_text_content text
  match timestamp with
  | none => some cleaned_text
  | some ts =>
    if ts = "" then some cleaned_text
    else
      match secondsOfParts (pySplit ':' ts) with
      | none => none
      | some seconds =>
        some ("<a href=\"https://www.youtube.com/watch?v=" ++ video_id ++ "&t=" ++
          toString seconds ++ "\" target=\"_blank\" class=\"highlighted-timestamp\">[" ++
          ts ++ "]</a> " ++ cleaned_text)

/-! ## `process_section_lines` (lines 168-186) -/

/-- `re.search(r'\[(\d{2}:\d{2}:\d{2})\]', entry)`, returning group 1. -/
def findTs : List Char → Option String
  | [] => none
  | c :: cs =>
    match tsTokenAt (c :: cs) with
    | some (inner, _) => some ⟨inner⟩
    | none => findTs cs

/-- Matcher for `\[[\d:\.]+\]\s*-?\s*` with replacement `''`. -/
def matchTsTok : List Char → Option (List Char × List Char)
  | '[' :: rest =>
    let run := rest.takeWhile (fun c => isDigitCh c || c = ':' || c = '.')
    if run = [] then none
    else
      match rest.drop run.length with
      | ']' :: rest2 =>
        let r3 := rest2.dropWhile pyWs
        let r4 := match r3 with
          | '-' :: t => t.dropWhile pyWs
          | _ => r3
        some ([], r4)
      | _ => none
  | _ => none

/-- `re.sub(r'\[[\d:\.]+\]\s*-?\s*', '', entry)`. -/
def stripTsTokens (s : String) : String := ⟨scanSub matchTsTok s.data⟩

/-- Per-entry computation of the `process_section_lines` loop body:
extract an inline `[HH:MM:SS]` timestamp, strip timestamp tokens from the
text, fall back to the transcript index when the inline timestamp is
missing or fails validation, then format. -/
def pslEntry (timestamp_map : List (String × String)) (video_id video_duration : String)
    (entry : String) : Option String :=
  let ts0 := findTs entry.data
  let text := pyStripWs (stripTsTokens entry)
  let timestamp : Option String :=
    match ts0 with
    | none => lookupAssoc timestamp_map (pyLower text)
    | some t =>
      if validate_timestamp t video_duration then some t
      else lookupAssoc timestamp_map (pyLower text)
  format_entry text timestamp video_id

/-- Loop of `process_section_lines`, with the accumulated
`processed_entries` made explicit. -/
def pslAux (timestamp_map : List (String × String)) (video_id video_duration : String) :
    List String → List String → Option (List String)
  | acc, [] => some acc
  | acc, entry :: rest =>
    match pslEntry timestamp_map video_id video_duration entry with
    | none => none
    | some formatted =>
      pslAux timestamp_map video_id video_duration
        (if formatted ≠ "" ∧ ¬ acc.contains formatted then acc ++ [formatted] else acc) rest

/-- `process_section_lines`. -/
def process_section_lines (section_lines : List String)
    (timestamp_map : List (String × String)) (video_id video_duration : String) :
    Option (List String) :=
  pslAux timestamp_map video_id video_duration [] section_lines

/-! ## `merge_and_format_summaries` (lines 188-249)

`get_video_details` performs a network call; it is a parameter
(`fetch : String → Option VideoDetails`), with `none` covering both the
"no items" and the caught-exception branches.  The upload timestamp is
only a sort key; its fractional part is irrelevant to ordering of the
data this script sees, so it is carried as an `Int`. -/

/-- Result shape of `get_video_details`. -/
structure VideoDetails where
  title : String
  duration : String
  upload_date : String
  timestamp : Int
deriving DecidableEq

/-- `{"summary": ...}` — one summary chunk. -/
structure SummaryChunk where
  summary : String
deriving DecidableEq

/-- One ingested summary JSON document. -/
structure SummaryDoc where
  video_id : Option String
  transcript : List TranscriptEntry
  summaries : List SummaryChunk
deriving DecidableEq

/-- The three section keys of a merged record. -/
inductive SectionKey
  | key_moments
  | standout_players
  | strategic_insights
deriving DecidableEq

/-- The per-video accumulation target. -/
structure MergedRecord where
  key_moments : List String
  standout_players : List String
  strategic_insights : List String
  video_details : VideoDetails
deriving DecidableEq

/-- Read one section sequence. -/
def MergedRecord.sec (r : MergedRecord) : SectionKey → List String
  | .key_moments => r.key_moments
  | .standout_players => r.standout_players
  | .strategic_insights => r.strategic_insights

/-- `merged[video_id][section].extend(xs)` on one record. -/
def MergedRecord.extendSec (r : MergedRecord) (k : SectionKey) (xs : List String) :
    MergedRecord :=
  match k with
  | .key_moments => { r with key_moments := r.key_moments ++ xs }
  | .standout_players => { r with standout_players := r.standout_players ++ xs }
  | .strategic_insights => { r with strategic_insights := r.strategic_insights ++ xs }

/-- The `merged` dict: insertion-ordered association list. -/
abbrev MergedMap := List (String × MergedRecord)

/-- `merged.get(video_id)`. -/
def lookupRec (m : MergedMap) (k : String) : Option MergedRecord :=
  (m.find? (fun p => p.1 = k)).map (fun p => p.2)

/-- In-place update of the record stored under `k`. -/
def updateRec (m : MergedMap) (k : String) (f : MergedRecord → MergedRecord) : MergedMap :=
  m.map (fun p => if p.1 = k then (k, f p.2) else p)

/-- Loop state while scanning one chunk's lines: the current section,
the pending `section_lines`, and the `merged` dict. -/
structure ChunkSt where
  cur : SectionKey
  buf : List String
  merged : MergedMap

/-- Flush `section_lines` (if nonempty) through `process_section_lines`
into the current section. -/
def flushBuf (tm : List (String × String)) (vid dur : String) (st : ChunkSt) :
    Option MergedMap :=
  if st.buf.isEmpty then some st.merged
  else
    (process_section_lines st.buf tm vid dur).map
      (fun processed => updateRec st.merged vid (fun r => r.extendSec st.cur processed))

/-- One iteration of `for line in chunk.get("summary", "").split('\n')`. -/
def chunkStep (tm : List (String × String)) (vid dur : String) (st : ChunkSt)
    (raw : String) : Option ChunkSt :=
  let line := pyStripWs raw
  if line = "" then some st
  else if occursIn "standout players:" (pyLower line) then
    (flushBuf tm vid dur st).map (fun m => ⟨.standout_players, [], m⟩)
  else if occursIn "strategic insights:" (pyLower line) then
    (flushBuf tm vid dur st).map (fun m => ⟨.strategic_insights, [], m⟩)
  else some { st with buf := st.buf ++ [line] }

/-- Process one summary chunk: scan its lines from the initial state
(`current_section = "key_moments"`, empty buffer), then flush the
remaining lines. -/
def processChunk (tm : List (String × String)) (vid dur : String) (merged : MergedMap)
    (chunk : SummaryChunk) : Option MergedMap := do
  let st ← (pySplit '\n' chunk.summary).foldlM (chunkStep tm vid dur)
    (⟨.key_moments, [], merged⟩ : ChunkSt)
  flushBuf tm vid dur st

/-- Process one summary document: skip on falsy `video_id` or failed
metadata fetch; build the transcript index; create the record if absent;
fold the chunks. -/
def processDoc (fetch : String → Option VideoDetails) (merged : MergedMap)
    (doc : SummaryDoc) : Option MergedMap :=
  match doc.video_id with
  | none => some merged
  | some vid =>
    if vid = "" then some merged
    else
      match fetch vid with
      | none => some merged
      | some video_details =>
        let tm := create_timestamp_map doc.transcript
        let merged1 :=
          if (lookupRec merged vid).isSome then merged
          else merged ++ [(vid, ⟨[], [], [], video_details⟩)]
        doc.summaries.foldlM (processChunk tm vid video_details.duration) merged1

/-- `merge_and_format_summaries`. -/
def merge_and_format_summaries (fetch : String → Option VideoDetails)
    (summaries : List SummaryDoc) : Option MergedMap :=
  summaries.foldlM (processDoc fetch) []

/-! ## `generate_html_report` (lines 251-285), `update_github_html`
(lines 287-297) and `main` (lines 301-331)

Template rendering and file writes are external; the report is modelled by
the sorted per-video data handed to the renderer.  `update_github_html`
wraps its whole body in `try/except Exception`: a publish failure is
logged and the function returns normally, which the outcome record makes
explicit. -/

/-- One entry of the `videos` list handed to the template. -/
structure VideoData where
  id : String
  title : String
  duration : String
  upload_date : String
  key_moments : List String
  standout_players : List String
  strategic_insights : List String
deriving DecidableEq

/-- Stable descending insertion by upload timestamp
(`videos.sort(key=..., reverse=True)`; Python's sort is stable): the
inserted element walks past strictly larger keys only, so it lands in
front of any element with an equal key — and under the `foldr` below the
earlier list element is inserted last, preserving original order on
ties exactly as Python's stable reverse sort does. -/
def insDesc (ts : VideoData → Int) (x : VideoData) : List VideoData → List VideoData
  | [] => [x]
  | y :: ys => if ts x < ts y then y :: insDesc ts x ys else x :: y :: ys

/-- Stable sort, descending by the given key. -/
def sortDesc (ts : VideoData → Int) (l : List VideoData) : List VideoData :=
  l.foldr (insDesc ts) []

/-- `generate_html_report`: merge, assemble the per-video dicts, sort by
upload timestamp descending; `none` models an uncaught exception escaping
the merge. -/
def generate_html_report (fetch : String → Option VideoDetails)
    (summaries : List SummaryDoc) : Option (List VideoData) :=
  (merge_and_format_summaries fetch summaries).map fun merged_data =>
    let videos := merged_data.map fun p =>
      (⟨p.1, p.2.video_details.title, p.2.video_details.duration,
        p.2.video_details.upload_date, p.2.key_moments, p.2.standout_players,
        p.2.strategic_insights⟩ : VideoData)
    sortDesc
      (fun v => ((lookupRec merged_data v.id).map (fun r => r.video_details.timestamp)).getD 0)
      videos

/-- Observable outcome of `update_github_html`. -/
structure PubOutcome where
  loggedError : Bool
  raised : Bool
deriving DecidableEq

/-- `update_github_html`: the entire body sits inside
`try/except Exception as e: logging.error(...)`, so a failed push is
logged and swallowed — the function never raises. -/
def update_github_html (publishOk : Bool) : PubOutcome :=
  if publishOk then ⟨false, false⟩ else ⟨true, false⟩

/-- Observable outcome of one `main()` run. -/
structure RunResult where
  raised : Bool
  artifactOnDisk : Bool
  publishErrorLogged : Bool
deriving DecidableEq

/-- `main`: load documents (already parsed here; JSON failures were
skipped), warn-and-return on empty input, generate the report (writing
`latest_report.html`), then publish.  Unexpected exceptions inside the
`try` are logged and re-raised (`raised = true`). -/
def mainRun (summaries : List SummaryDoc) (fetch : String → Option VideoDetails)
    (publishOk : Bool) : RunResult :=
  if summaries.isEmpty then ⟨false, false, false⟩
  else
    match generate_html_report fetch summaries with
    | none => ⟨true, false, false⟩
    | some _ =>
      let pub := update_github_html publishOk
      ⟨pub.raised, true, pub.loggedError⟩

/-- Stripped, non-blank lines — the ones the chunk loop accumulates. -/
def nonBlankLines (lines : List String) : List String :=
  (lines.map pyStripWs).filter (fun l => l ≠ "")

/-- No section sequence of the record contains the empty string. -/
def noEmptyRec (r : MergedRecord) : Prop :=
  "" ∉ r.key_moments ∧ "" ∉ r.standout_players ∧ "" ∉ r.strategic_insights

/-- No record of the merged map contains an empty entry. -/
def noEmptyMap (m : MergedMap) : Prop := ∀ p ∈ m, noEmptyRec p.2

/-- The pair of digit characters of `n < 100`. -/
def twoDigits (n : Nat) : List Char := [Nat.digitChar (n / 10), Nat.digitChar (n % 10)]

/-- A canonical `"H:MM:SS"` timestamp string built from its components. -/
def canonHMS (h m s : Nat) : String :=
  ⟨Nat.digitChar h :: ':' :: (twoDigits m ++ ':' :: twoDigits s)⟩

/-- The zero-padded `"0H:MM:SS"` form the normalizer produces. -/
def canonHHMMSS (h m s : Nat) : String :=
  ⟨'0' :: Nat.digitChar h :: ':' :: (twoDigits m ++ ':' :: twoDigits s)⟩

/-! ## Claim theorems -/

/-- C2 counterexample: the normalizer in this script reads a bare decimal
token as decimal *seconds*, so `normalize("10.88")` is `00:00:10`, not the
fractional-minute reading `00:10:53` the claim asserts. -/
theorem C2_counterexample :
    process_timestamp "10.88" = some "00:00:10" ∧
      process_timestamp "10.88" ≠ some "00:10:53" :=
  ⟨by decide, by decide⟩

/-- C2 (amended): the Timestamp Normalizer interprets a bare decimal token
as decimal seconds — the integer part of the value is a count of seconds
split by integer division — so `normalize("10.88")` is `00:00:10` and
`normalize("125")` is `00:02:05`. -/
theorem C2_decimal_seconds :
    process_timestamp "10.88" = some "00:00:10" ∧
      process_timestamp "125" = some "00:02:05" :=
  ⟨by decide, by decide⟩

/-- C3 counterexample: the negative input `"-5"` is not rejected — the
normalizer returns the token `"-1:59:55"`, whose total seconds are `-5`,
negative, violating both halves of the claimed invariant. -/
theorem C3_counterexample :
    process_timestamp "-5" = some "-1:59:55" ∧
      secondsOfParts (pySplit ':' "-1:59:55") = some (-5) ∧ (-5 : Int) < 0 :=
  ⟨by decide, by decide, by decide⟩

/-- C7: the Text Cleaner strips the bold wrapper and collapses the
duplicate-bracketed-timestamp pattern, leaving plain text with neither
bracketed timestamp nor any `**` markup. -/
theorem C7_clean_collapses :
    clean_text_content "**Big Pot** [00:01:00]...[00:01:00] happened" =
        "Big Pot ... happened" ∧
      occursIn "[00:01:00]"
          (clean_text_content "**Big Pot** [00:01:00]...[00:01:00] happened") = false ∧
      occursIn "**"
          (clean_text_content "**Big Pot** [00:01:00]...[00:01:00] happened") = false :=
  ⟨by decide, by decide, by decide⟩

/-- C6: on timestamps whose colon-separated components all parse as
integers, `validate_timestamp` converts both strings to total seconds and
returns true exactly when `0 ≤ ts_seconds ≤ dur_seconds`. -/
theorem C6_validate_iff (ts dur : String) (tsv durv : Int)
    (hts : secondsOfParts (pySplit ':' ts) = some tsv)
    (hdur : secondsOfParts (pySplit ':' dur) = some durv) :
    validate_timestamp ts dur = decide (0 ≤ tsv ∧ tsv ≤ durv) := by
  unfold validate_timestamp
  rw [hts, hdur]

/-- C6 witness: the two concrete checks from the claim. -/
theorem C6_witness :
    validate_timestamp "01:00:00" "00:45:00" = false ∧
      validate_timestamp "00:30:00" "00:45:00" = true := by
  constructor
  · rw [C6_validate_iff "01:00:00" "00:45:00" 3600 2700 (by decide) (by decide)]
    decide
  · rw [C6_validate_iff "00:30:00" "00:45:00" 1800 2700 (by decide) (by decide)]
    decide

/-- C4 counterexample: with the publish step failing, the run still
terminates normally — `raised = false` (the zero-equivalent signal) even
though the publish error was logged; the artifact is on disk.  This
contradicts the claim that a `PublishError` is fatal for the run. -/
theorem C4_counterexample :
    mainRun [⟨some "w", [], []⟩] (fun _ => some ⟨"T", "00:10:00", "d", 0⟩) false =
      ⟨false, true, true⟩ := by
  decide

/-- C4 (amended): a publish failure is logged and swallowed inside
`update_github_html`; whenever report generation succeeds on a nonempty
input, the run terminates normally regardless of the publish outcome,
with the local HTML artifact on disk and the publish error logged. -/
theorem C4_publish_nonfatal (docs : List SummaryDoc)
    (fetch : String → Option VideoDetails) (v : List VideoData)
    (hne : docs.isEmpty = false) (hg : generate_html_report fetch docs = some v) :
    mainRun docs fetch false = ⟨false, true, true⟩ := by
  unfold mainRun
  rw [hne, hg]
  rfl

/-- C4 witness: a one-document run with a failing publish. -/
theorem C4_witness :
    mainRun [⟨some "w", [], []⟩] (fun _ => some ⟨"T", "00:10:00", "d", 0⟩) false =
      ⟨false, true, true⟩ :=
  C4_publish_nonfatal _ _ [⟨"w", "T", "00:10:00", "d", [], [], []⟩] (by decide) (by decide)

/-- C5: when a summary line carries no inline bracketed `HH:MM:SS`
timestamp, or its inline timestamp fails validation against the video
duration, `process_section_lines` resolves its timestamp by looking up
the lowercased stripped text in the transcript timestamp map. -/
theorem C5_fallback_lookup (line : String) (tm : List (String × String))
    (vid dur : String)
    (h : findTs line.data = none ∨
      ∃ t, findTs line.data = some t ∧ validate_timestamp t dur = false) :
    process_section_lines [line] tm vid dur =
      (format_entry (pyStripWs (stripTsTokens line))
          (lookupAssoc tm (pyLower (pyStripWs (stripTsTokens line)))) vid).map
        (fun f => if f = "" then [] else [f]) := by
  have he : pslEntry tm vid dur line =
      format_entry (pyStripWs (stripTsTokens line))
        (lookupAssoc tm (pyLower (pyStripWs (stripTsTokens line)))) vid := by
    unfold pslEntry
    rcases h with h | ⟨t, ht, hv⟩
    · rw [h]
    · rw [ht]
      simp [hv]
  unfold process_section_lines pslAux
  rw [he]
  cases hf : format_entry (pyStripWs (stripTsTokens line))
      (lookupAssoc tm (pyLower (pyStripWs (stripTsTokens line)))) vid with
  | none => rfl
  | some f =>
    by_cases hf0 : f = ""
    · subst hf0
      simp [pslAux]
    · simp [pslAux, hf0]

/-- C5 witness, both triggers: the claim's concrete scenario — transcript
entry `{text: "big bluff", true_video_timestamp: "95"}`, summary line
`"big bluff"` with no inline timestamp — resolves to `00:01:35` (`t=95`
seconds in the link); and the same line carrying the inline timestamp
`[99:00:00]`, which exceeds the `00:10:00` duration and fails validation,
falls back to the same transcript lookup. -/
theorem C5_witness :
    process_section_lines ["big bluff"]
        (create_timestamp_map [⟨"big bluff", some "95"⟩]) "abc" "00:10:00" =
      some ["<a href=\"https://www.youtube.com/watch?v=abc&t=95\" target=\"_blank\" class=\"highlighted-timestamp\">[00:01:35]</a> big bluff"] ∧
    process_section_lines ["[99:00:00] big bluff"]
        (create_timestamp_map [⟨"big bluff", some "95"⟩]) "abc" "00:10:00" =
      some ["<a href=\"https://www.youtube.com/watch?v=abc&t=95\" target=\"_blank\" class=\"highlighted-timestamp\">[00:01:35]</a> big bluff"] :=
  ⟨(C5_fallback_lookup "big bluff" (create_timestamp_map [⟨"big bluff", some "95"⟩])
      "abc" "00:10:00" (Or.inl (by decide))).trans (by decide),
   (C5_fallback_lookup "[99:00:00] big bluff"
      (create_timestamp_map [⟨"big bluff", some "95"⟩]) "abc" "00:10:00"
      (Or.inr ⟨"99:00:00", by decide, by decide⟩)).trans (by decide)⟩

/-- The dedup check of the `process_section_lines` loop keeps its local
accumulator duplicate-free. -/
theorem pslAux_nodup (tm : List (String × String)) (vid dur : String) :
    ∀ (lines acc : List String), acc.Nodup →
      ∀ out, pslAux tm vid dur acc lines = some out → out.Nodup := by
  intro lines
  induction lines with
  | nil =>
    intro acc hacc out he
    simp only [pslAux, Option.some.injEq] at he
    exact he ▸ hacc
  | cons e rest ih =>
    intro acc hacc out he
    simp only [pslAux] at he
    cases hf : pslEntry tm vid dur e with
    | none => simp [hf] at he
    | some f =>
      simp only [hf] at he
      split at he
      · next hc =>
        refine ih (acc ++ [f]) ?_ out he
        have hmem : f ∉ acc := by
          intro hm
          exact hc.2 (List.elem_eq_true_of_mem hm)
        simp [List.nodup_append, hacc, hmem]
      · exact ih acc hacc out he

/-- C1 counterexample: the same formatted entry arriving from two chunks
of the same document is appended twice — the merged record's
`key_moments` sequence is `["hello", "hello"]`, which has a duplicate. -/
theorem C1_counterexample :
    (merge_and_format_summaries (fun _ => some ⟨"T", "00:10:00", "d", 0⟩)
          [⟨some "v", [], [⟨"hello"⟩, ⟨"hello"⟩]⟩]).map
        (List.map (fun p => (p.1, p.2.key_moments))) =
      some [("v", ["hello", "hello"])] ∧
      ¬ (["hello", "hello"] : List String).Nodup :=
  ⟨by decide, by decide⟩

/-- C1 (amended): deduplication happens only within a single
`process_section_lines` call — the list it returns contains no duplicate
strings; entries already stored in the merged record's sequence by earlier
chunks or documents are not consulted, so a section may accumulate
duplicates across chunks. -/
theorem C1_dedup_within_call (lines : List String) (tm : List (String × String))
    (vid dur : String) (out : List String)
    (h : process_section_lines lines tm vid dur = some out) : out.Nodup :=
  pslAux_nodup tm vid dur lines [] List.nodup_nil out h

/-- C1 witness: a concrete call returning a duplicate-free list. -/
theorem C1_witness :
    process_section_lines ["a", "a"] [] "v" "00:10:00" = some ["a"] ∧
      (["a"] : List String).Nodup :=
  ⟨by decide, C1_dedup_within_call ["a", "a"] [] "v" "00:10:00" ["a"] (by decide)⟩

/-- Chunk-scan decomposition, generalized over the pending buffer.  Scanning
`pre ++ hdr :: post` from the key-moments state, where no line of `pre` is a
section header and `hdr` is one, first flushes the non-blank lines of `pre`
into the current (key moments) section and then continues on `post` in the
header's section with an empty buffer. -/
theorem chunkFold_split (tm : List (String × String)) (vid dur : String)
    (m0 : MergedMap) (hdr : String) (post : List String) (tgt : SectionKey)
    (hhdr : (occursIn "standout players:" (pyLower (pyStripWs hdr)) = true ∧
        tgt = SectionKey.standout_players) ∨
      (occursIn "standout players:" (pyLower (pyStripWs hdr)) = false ∧
        occursIn "strategic insights:" (pyLower (pyStripWs hdr)) = true ∧
        tgt = SectionKey.strategic_insights)) :
    ∀ (pre buf : List String),
      (∀ l ∈ pre, occursIn "standout players:" (pyLower (pyStripWs l)) = false ∧
        occursIn "strategic insights:" (pyLower (pyStripWs l)) = false) →
      List.foldlM (chunkStep tm vid dur)
          (⟨SectionKey.key_moments, buf, m0⟩ : ChunkSt) (pre ++ hdr :: post) =
        (flushBuf tm vid dur
            (⟨SectionKey.key_moments, buf ++ nonBlankLines pre, m0⟩ : ChunkSt)).bind
          (fun m1 =>
            List.foldlM (chunkStep tm vid dur) (⟨tgt, [], m1⟩ : ChunkSt) post) := by
  intro pre
  induction pre with
  | nil =>
    intro buf _
    have hne : pyStripWs hdr ≠ "" := by
      intro e
      rcases hhdr with ⟨h1, _⟩ | ⟨_, h2, _⟩
      · rw [e] at h1; exact absurd h1 (by decide)
      · rw [e] at h2; exact absurd h2 (by decide)
    simp only [List.nil_append, List.foldlM_cons, nonBlankLines, List.map_nil,
      List.filter_nil, List.append_nil]
    rcases hhdr with ⟨h1, rfl⟩ | ⟨h1, h2, rfl⟩
    · simp only [chunkStep, if_neg hne, h1, if_true]
      cases hfl : flushBuf tm vid dur ⟨SectionKey.key_moments, buf, m0⟩ <;>
        simp [hfl]
    · simp only [chunkStep, if_neg hne, h1, h2, if_true, Bool.false_eq_true,
        if_false]
      cases hfl : flushBuf tm vid dur ⟨SectionKey.key_moments, buf, m0⟩ <;>
        simp [hfl]
  | cons l ls ih =>
    intro buf hpre
    have hl := hpre l (by simp)
    have hrest : ∀ x ∈ ls, occursIn "standout players:" (pyLower (pyStripWs x)) = false ∧
        occursIn "strategic insights:" (pyLower (pyStripWs x)) = false :=
      fun x hx => hpre x (by simp [hx])
    simp only [List.cons_append, List.foldlM_cons]
    by_cases hb : pyStripWs l = ""
    · simp only [chunkStep, if_pos hb, Option.bind_eq_bind, Option.some_bind]
      rw [ih buf hrest]
      simp [nonBlankLines, hb]
    · simp only [chunkStep, if_neg hb, hl.1, hl.2, Bool.false_eq_true, if_false,
        Option.bind_eq_bind, Option.some_bind]
      rw [ih (buf ++ [pyStripWs l]) hrest]
      simp [nonBlankLines, List.filter_cons, hb, List.append_assoc]

/-- C8: inside a summary chunk, a line containing (case-insensitively)
`"standout players:"` or `"strategic insights:"` is a section boundary:
the chunk scan started in the default `key_moments` section flushes every
(non-blank) line occurring before the first such header into
`key_moments`, then continues scanning the rest of the chunk in the
header's section. -/
theorem C8_section_boundaries (tm : List (String × String)) (vid dur : String)
    (m0 : MergedMap) (pre : List String) (hdr : String) (post : List String)
    (tgt : SectionKey)
    (hpre : ∀ l ∈ pre, occursIn "standout players:" (pyLower (pyStripWs l)) = false ∧
      occursIn "strategic insights:" (pyLower (pyStripWs l)) = false)
    (hhdr : (occursIn "standout players:" (pyLower (pyStripWs hdr)) = true ∧
        tgt = SectionKey.standout_players) ∨
      (occursIn "standout players:" (pyLower (pyStripWs hdr)) = false ∧
        occursIn "strategic insights:" (pyLower (pyStripWs hdr)) = true ∧
        tgt = SectionKey.strategic_insights)) :
    List.foldlM (chunkStep tm vid dur)
        (⟨SectionKey.key_moments, [], m0⟩ : ChunkSt) (pre ++ hdr :: post) =
      (flushBuf tm vid dur
          (⟨SectionKey.key_moments, nonBlankLines pre, m0⟩ : ChunkSt)).bind
        (fun m1 =>
          List.foldlM (chunkStep tm vid dur) (⟨tgt, [], m1⟩ : ChunkSt) post) := by
  have h := chunkFold_split tm vid dur m0 hdr post tgt hhdr pre [] hpre
  simpa using h

/-- C8 witness: one non-header line followed by a "Standout Players:"
header. -/
theorem C8_witness :
    List.foldlM (chunkStep [] "v" "00:10:00")
        (⟨SectionKey.key_moments, [],
          [("v", ⟨[], [], [], ⟨"T", "00:10:00", "d", 0⟩⟩)]⟩ : ChunkSt)
        (["alpha"] ++ "Standout Players:" :: []) =
      (flushBuf [] "v" "00:10:00"
          (⟨SectionKey.key_moments, nonBlankLines ["alpha"],
            [("v", ⟨[], [], [], ⟨"T", "00:10:00", "d", 0⟩⟩)]⟩ : ChunkSt)).bind
        (fun m1 =>
          List.foldlM (chunkStep [] "v" "00:10:00")
            (⟨SectionKey.standout_players, [], m1⟩ : ChunkSt) []) :=
  C8_section_boundaries [] "v" "00:10:00"
    [("v", ⟨[], [], [], ⟨"T", "00:10:00", "d", 0⟩⟩)] ["alpha"]
    "Standout Players:" [] SectionKey.standout_players
    (by decide) (Or.inl ⟨by decide, rfl⟩)

/-! ## C10: no empty strings are ever stored in a section -/

/-- Invariant transport along an `Option`-monadic left fold. -/
theorem foldlM_option_inv {α β : Type} (P : β → Prop) (step : β → α → Option β)
    (hstep : ∀ b a b2, P b → step b a = some b2 → P b2) :
    ∀ (l : List α) (b b2 : β), P b → List.foldlM step b l = some b2 → P b2 := by
  intro l
  induction l with
  | nil =>
    intro b b2 hb he
    simp only [List.foldlM_nil, Option.pure_def, Option.some.injEq] at he
    exact he ▸ hb
  | cons a t ih =>
    intro b b2 hb he
    rw [List.foldlM_cons] at he
    cases hs : step b a with
    | none => rw [hs] at he; simp at he
    | some b1 =>
      rw [hs] at he
      simp only [Option.bind_eq_bind, Option.some_bind] at he
      exact ih b1 b2 (hstep b a b1 hb hs) he

/-- The `process_section_lines` loop never appends an empty entry
(`if formatted and ...`). -/
theorem pslAux_no_empty (tm : List (String × String)) (vid dur : String) :
    ∀ (lines acc : List String), "" ∉ acc →
      ∀ out, pslAux tm vid dur acc lines = some out → "" ∉ out := by
  intro lines
  induction lines with
  | nil =>
    intro acc hacc out he
    simp only [pslAux, Option.some.injEq] at he
    exact he ▸ hacc
  | cons e rest ih =>
    intro acc hacc out he
    simp only [pslAux] at he
    cases hf : pslEntry tm vid dur e with
    | none => simp [hf] at he
    | some f =>
      simp only [hf] at he
      split at he
      · next hc =>
        refine ih (acc ++ [f]) ?_ out he
        simp only [List.mem_append, List.mem_singleton]
        rintro (hm | hm)
        · exact hacc hm
        · exact hc.1 hm.symm
      · exact ih acc hacc out he

/-- Every string returned by `process_section_lines` is nonempty. -/
theorem psl_no_empty (lines : List String) (tm : List (String × String))
    (vid dur : String) (out : List String)
    (h : process_section_lines lines tm vid dur = some out) : "" ∉ out :=
  pslAux_no_empty tm vid dur lines [] (by simp) out h

/-- Extending a section with nonempty strings preserves `noEmptyRec`. -/
theorem extendSec_noEmpty (r : MergedRecord) (k : SectionKey) (xs : List String)
    (hr : noEmptyRec r) (hxs : "" ∉ xs) : noEmptyRec (r.extendSec k xs) := by
  obtain ⟨h1, h2, h3⟩ := hr
  cases k <;>
    simp only [MergedRecord.extendSec, noEmptyRec, List.mem_append] <;>
    refine ⟨?_, ?_, ?_⟩ <;> tauto

/-- `updateRec` preserves `noEmptyMap` when the update does. -/
theorem updateRec_noEmpty (m : MergedMap) (k : String) (f : MergedRecord → MergedRecord)
    (hm : noEmptyMap m) (hf : ∀ r, noEmptyRec r → noEmptyRec (f r)) :
    noEmptyMap (updateRec m k f) := by
  intro p hp
  rcases List.mem_map.1 hp with ⟨q, hq, rfl⟩
  by_cases hqk : q.1 = k
  · simpa [hqk] using hf q.2 (hm q hq)
  · simpa [hqk] using hm q hq

/-- `flushBuf` preserves `noEmptyMap`. -/
theorem flushBuf_noEmpty (tm : List (String × String)) (vid dur : String)
    (st : ChunkSt) (m2 : MergedMap) (hm : noEmptyMap st.merged)
    (h : flushBuf tm vid dur st = some m2) : noEmptyMap m2 := by
  unfold flushBuf at h
  by_cases hb : st.buf.isEmpty
  · rw [if_pos hb] at h
    injection h with h
    exact h ▸ hm
  · rw [if_neg hb] at h
    cases hp : process_section_lines st.buf tm vid dur with
    | none => rw [hp] at h; simp at h
    | some ps =>
      rw [hp] at h
      simp only [Option.map_some', Option.some.injEq] at h
      subst h
      exact updateRec_noEmpty _ _ _ hm
        (fun r hr => extendSec_noEmpty r st.cur ps hr (psl_no_empty _ _ _ _ _ hp))

/-- `chunkStep` preserves `noEmptyMap` of the state's merged map. -/
theorem chunkStep_noEmpty (tm : List (String × String)) (vid dur : String)
    (st : ChunkSt) (raw : String) (st2 : ChunkSt) (hm : noEmptyMap st.merged)
    (h : chunkStep tm vid dur st raw = some st2) : noEmptyMap st2.merged := by
  simp only [chunkStep] at h
  split at h
  · injection h with h
    exact h ▸ hm
  · split at h
    · cases hfl : flushBuf tm vid dur st with
      | none => rw [hfl] at h; simp at h
      | some m1 =>
        rw [hfl] at h
        simp only [Option.map_some', Option.some.injEq] at h
        subst h
        exact flushBuf_noEmpty tm vid dur st m1 hm hfl
    · split at h
      · cases hfl : flushBuf tm vid dur st with
        | none => rw [hfl] at h; simp at h
        | some m1 =>
          rw [hfl] at h
          simp only [Option.map_some', Option.some.injEq] at h
          subst h
          exact flushBuf_noEmpty tm vid dur st m1 hm hfl
      · injection h with h
        exact h ▸ hm

/-- `processChunk` preserves `noEmptyMap`. -/
theorem processChunk_noEmpty (tm : List (String × String)) (vid dur : String)
    (merged : MergedMap) (chunk : SummaryChunk) (m2 : MergedMap)
    (hm : noEmptyMap merged) (h : processChunk tm vid dur merged chunk = some m2) :
    noEmptyMap m2 := by
  unfold processChunk at h
  cases hst : List.foldlM (chunkStep tm vid dur)
      (⟨SectionKey.key_moments, [], merged⟩ : ChunkSt) (pySplit '\n' chunk.summary) with
  | none => rw [hst] at h; simp at h
  | some st =>
    rw [hst] at h
    simp only [Option.bind_eq_bind, Option.some_bind] at h
    have hstm : noEmptyMap st.merged :=
      foldlM_option_inv (fun s => noEmptyMap s.merged) (chunkStep tm vid dur)
        (fun b a b2 hb hs => chunkStep_noEmpty tm vid dur b a b2 hb hs)
        (pySplit '\n' chunk.summary) _ st hm hst
    exact flushBuf_noEmpty tm vid dur st m2 hstm h

/-- `processDoc` preserves `noEmptyMap`. -/
theorem processDoc_noEmpty (fetch : String → Option VideoDetails)
    (merged : MergedMap) (doc : SummaryDoc) (m2 : MergedMap)
    (hm : noEmptyMap merged) (h : processDoc fetch merged doc = some m2) :
    noEmptyMap m2 := by
  unfold processDoc at h
  cases hv : doc.video_id with
  | none =>
    simp only [hv] at h
    injection h with h
    exact h ▸ hm
  | some vid =>
    simp only [hv] at h
    by_cases hv0 : vid = ""
    · rw [if_pos hv0] at h
      injection h with h
      exact h ▸ hm
    · rw [if_neg hv0] at h
      cases hf : fetch vid with
      | none =>
        rw [hf] at h
        injection h with h
        exact h ▸ hm
      | some vd =>
        rw [hf] at h
        have hm1 : noEmptyMap
            (if (lookupRec merged vid).isSome then merged
             else merged ++ [(vid, ⟨[], [], [], vd⟩)]) := by
          by_cases hl : (lookupRec merged vid).isSome
          · rw [if_pos hl]; exact hm
          · rw [if_neg hl]
            intro p hp
            rcases List.mem_append.1 hp with hp1 | hp1
            · exact hm p hp1
            · simp only [List.mem_singleton] at hp1
              subst hp1
              exact ⟨by simp, by simp, by simp⟩
        exact foldlM_option_inv noEmptyMap (processChunk (create_timestamp_map doc.transcript) vid vd.duration)
          (fun b a b2 hb hs =>
            processChunk_noEmpty (create_timestamp_map doc.transcript) vid vd.duration b a b2 hb hs)
          doc.summaries _ m2 hm1 h

/-- C10: every string stored in any section sequence of any merged video
record is nonempty — blank lines are skipped by the chunk scanner and an
empty formatted entry is never appended. -/
theorem C10_no_empty_entries (fetch : String → Option VideoDetails)
    (docs : List SummaryDoc) (m : MergedMap)
    (h : merge_and_format_summaries fetch docs = some m) :
    ∀ vid r, (vid, r) ∈ m →
      "" ∉ r.key_moments ∧ "" ∉ r.standout_players ∧ "" ∉ r.strategic_insights := by
  have hall : noEmptyMap m :=
    foldlM_option_inv noEmptyMap (processDoc fetch)
      (fun b a b2 hb hs => processDoc_noEmpty fetch b a b2 hb hs)
      docs [] m (by intro p hp; cases hp) h
  intro vid r hmem
  exact hall (vid, r) hmem

/-- C10 witness: a concrete one-document run. -/
theorem C10_witness :
    ("" : String) ∉ (["hi"] : List String) ∧ ("" : String) ∉ ([] : List String) ∧
      ("" : String) ∉ ([] : List String) :=
  C10_no_empty_entries (fun _ => some ⟨"T", "00:10:00", "d", 0⟩)
    [⟨some "w", [], [⟨"hi"⟩]⟩]
    [("w", ⟨["hi"], [], [], ⟨"T", "00:10:00", "d", 0⟩⟩)] (by decide) "w"
    ⟨["hi"], [], [], ⟨"T", "00:10:00", "d", 0⟩⟩ (by decide)

/-- C3 (amended): along the no-colon decimal path, a non-negative parsed
value always yields a token whose hour count is non-negative and whose
minute and second components lie in `[0, 60)` — the claimed invariant
holds there.  (The counterexample shows it fails for negative inputs,
which are not rejected; colon-form inputs are reformatted with no range
check at all.) -/
theorem C3_decimal_invariant (s : String) (q : PyQ) (hne : s ≠ "")
    (hc : charIn ':' (pyStripBrackets s).data = false)
    (hq : pyFloat (pyStripBrackets s) = some q)
    (hnum : 0 ≤ q.num) (hden : 0 < q.den) :
    process_timestamp s =
      some (fmt02 (qTrunc (pyFloorDiv q 3600)) ++ ":" ++
        fmt02 (qTrunc (pyFloorDiv (pyModQ q 3600) 60)) ++ ":" ++
        fmt02 (qTrunc (pyModQ q 60))) ∧
      0 ≤ qTrunc (pyFloorDiv q 3600) ∧
      0 ≤ qTrunc (pyFloorDiv (pyModQ q 3600) 60) ∧
      qTrunc (pyFloorDiv (pyModQ q 3600) 60) < 60 ∧
      0 ≤ qTrunc (pyModQ q 60) ∧ qTrunc (pyModQ q 60) < 60 := by
  obtain ⟨N, D⟩ := q
  simp only at hnum hden
  constructor
  · simp only [process_timestamp, if_neg hne, hc, Bool.false_eq_true, if_false, hq]
  · have hD3600 : (0 : Int) < D * 3600 := by positivity
    have hD60 : (0 : Int) < D * 60 := by positivity
    have hfd3600 : N.fdiv (D * 3600) = N / (D * 3600) := Int.fdiv_eq_ediv N hD3600.le
    have hfd60 : N.fdiv (D * 60) = N / (D * 60) := Int.fdiv_eq_ediv N hD60.le
    have hr1 : N - 3600 * D * N.fdiv (D * 3600) = N % (D * 3600) := by
      rw [hfd3600, Int.emod_def]
      ring
    have hr2 : N - 60 * D * N.fdiv (D * 60) = N % (D * 60) := by
      rw [hfd60, Int.emod_def]
      ring
    refine ⟨?_, ?_, ?_, ?_, ?_⟩
    · simp only [pyFloorDiv, qTrunc, Int.tdiv_one]
      exact Int.fdiv_nonneg hnum hD3600.le
    · simp only [pyFloorDiv, pyModQ, qTrunc, Int.tdiv_one]
      exact Int.fdiv_nonneg (hr1 ▸ Int.emod_nonneg N hD3600.ne') hD60.le
    · simp only [pyFloorDiv, pyModQ, qTrunc, Int.tdiv_one]
      rw [hr1, Int.fdiv_eq_ediv _ hD60.le]
      rw [Int.ediv_lt_iff_lt_mul hD60]
      calc N % (D * 3600) < D * 3600 := Int.emod_lt_of_pos N hD3600
        _ = 60 * (D * 60) := by ring
    · simp only [pyModQ, qTrunc]
      rw [hr2, Int.tdiv_eq_ediv (Int.emod_nonneg N hD60.ne') hden.le]
      exact Int.ediv_nonneg (Int.emod_nonneg N hD60.ne') hden.le
    · simp only [pyModQ, qTrunc]
      rw [hr2, Int.tdiv_eq_ediv (Int.emod_nonneg N hD60.ne') hden.le]
      rw [Int.ediv_lt_iff_lt_mul hden]
      calc N % (D * 60) < D * 60 := Int.emod_lt_of_pos N hD60
        _ = 60 * D := by ring

/-- C3 witness: the input `"95"` — parsed as the non-negative float
`95/1`, its token is `00:01:35` and the components are in range. -/
theorem C3_witness :
    process_timestamp "95" = some "00:01:35" ∧
      0 ≤ qTrunc (pyFloorDiv ⟨95, 1⟩ 3600) ∧
      0 ≤ qTrunc (pyFloorDiv (pyModQ ⟨95, 1⟩ 3600) 60) ∧
      qTrunc (pyFloorDiv (pyModQ ⟨95, 1⟩ 3600) 60) < 60 ∧
      0 ≤ qTrunc (pyModQ ⟨95, 1⟩ 60) ∧ qTrunc (pyModQ ⟨95, 1⟩ 60) < 60 := by
  have h := C3_decimal_invariant "95" ⟨95, 1⟩ (by decide) (by decide) (by decide)
    (by decide) (by decide)
  exact ⟨by decide, h.2⟩

/-! ## C9: idempotence of the normalizer on canonical timestamps -/

/-- `String.mk` and list append commute with string append. -/
theorem strMk_append (a b : List Char) : (⟨a⟩ : String) ++ (⟨b⟩ : String) = ⟨a ++ b⟩ := rfl

/-- The colon string is the mk of the colon character. -/
theorem colon_str : (":" : String) = ⟨[':']⟩ := rfl

/-- Code of a digit character. -/
theorem digitChar_toNat {d : Nat} (h : d < 10) : (Nat.digitChar d).toNat = 48 + d := by
  interval_cases d <;> rfl

/-- Digit characters pass the digit test. -/
theorem isDigitCh_digitChar {d : Nat} (h : d < 10) : isDigitCh (Nat.digitChar d) = true := by
  simp only [isDigitCh, digitChar_toNat h, Bool.and_eq_true, decide_eq_true_eq]
  omega

/-- Value of a digit character. -/
theorem digitVal_digitChar {d : Nat} (h : d < 10) : digitVal (Nat.digitChar d) = d := by
  rw [digitVal, digitChar_toNat h]
  omega

/-- A digit character is not whitespace. -/
theorem digit_not_pyWs {c : Char} (h : isDigitCh c = true) : pyWs c = false := by
  cases hw : pyWs c
  · rfl
  · exfalso
    simp only [pyWs, Bool.or_eq_true, decide_eq_true_eq] at hw
    rcases hw with ((((e | e) | e) | e) | e) | e <;> subst e <;> exact absurd h (by decide)

/-- A digit character is not a bracket. -/
theorem digit_not_isBr {c : Char} (h : isDigitCh c = true) : isBr c = false := by
  cases hb : isBr c
  · rfl
  · exfalso
    simp only [isBr, Bool.or_eq_true, decide_eq_true_eq] at hb
    rcases hb with e | e <;> subst e <;> exact absurd h (by decide)

/-- A digit character is not a colon. -/
theorem digit_ne_colon {c : Char} (h : isDigitCh c = true) : c ≠ ':' := by
  intro e
  subst e
  exact absurd h (by decide)

/-- `dropWhile` is the identity when no element satisfies the predicate. -/
theorem dropWhile_id {p : Char → Bool} :
    ∀ l : List Char, (∀ c ∈ l, p c = false) → List.dropWhile p l = l := by
  intro l h
  cases l with
  | nil => rfl
  | cons a t =>
    rw [List.dropWhile_cons, h a (by simp)]
    simp

/-- `stripBoth` is the identity when no character is in the stripped set. -/
theorem stripBoth_id {p : Char → Bool} (l : List Char) (h : ∀ c ∈ l, p c = false) :
    stripBoth p l = l := by
  unfold stripBoth dropTrail
  rw [dropWhile_id l h, dropWhile_id l.reverse (fun c hc => h c (List.mem_reverse.1 hc)),
    List.reverse_reverse]

/-- `charIn` finds a character placed after an arbitrary leading segment. -/
theorem charIn_append (c : Char) (l1 rest : List Char) :
    charIn c (l1 ++ c :: rest) = true := by
  induction l1 with
  | nil => simp [charIn]
  | cons a t ih =>
    simp only [List.cons_append, charIn]
    by_cases h : a = c
    · rw [if_pos h]
    · rw [if_neg h]
      exact ih

/-- `splitChar` on a separator-free list. -/
theorem splitChar_no_sep (sep : Char) :
    ∀ l : List Char, (∀ c ∈ l, c ≠ sep) → splitChar sep l = [l] := by
  intro l
  induction l with
  | nil => intro _; rfl
  | cons a t ih =>
    intro h
    simp only [splitChar, if_neg (h a (by simp)), ih (fun c hc => h c (by simp [hc]))]

/-- `splitChar` peels one separator-free segment. -/
theorem splitChar_append (sep : Char) :
    ∀ (l1 rest : List Char), (∀ c ∈ l1, c ≠ sep) →
      splitChar sep (l1 ++ sep :: rest) = l1 :: splitChar sep rest := by
  intro l1
  induction l1 with
  | nil => intro rest _; simp [splitChar]
  | cons a t ih =>
    intro rest h
    have e := ih rest (fun c hc => h c (by simp [hc]))
    simp only [List.cons_append, splitChar, if_neg (h a (by simp)), List.append_eq]
    rw [e]

/-- `pyIntCore` on a nonempty pure-digit string. -/
theorem pyIntCore_digits (l : List Char) (hne : l ≠ []) (hd : l.all isDigitCh = true) :
    pyIntCore l = some ((digitsToNat l : Nat) : Int) := by
  cases l with
  | nil => exact absurd rfl hne
  | cons c ds =>
    have hc : isDigitCh c = true := by
      have := List.all_eq_true.1 hd c (by simp)
      simpa using this
    have hplus : ¬(c = '+') := by
      intro e; subst e; exact absurd hc (by decide)
    have hminus : ¬(c = '-') := by
      intro e; subst e; exact absurd hc (by decide)
    simp only [pyIntCore, if_neg hplus, if_neg hminus, hd, if_true]

/-- `pyInt` on a nonempty pure-digit string. -/
theorem pyInt_digits (l : List Char) (hne : l ≠ []) (hd : l.all isDigitCh = true) :
    pyInt ⟨l⟩ = some ((digitsToNat l : Nat) : Int) := by
  unfold pyInt
  show pyIntCore (stripBoth pyWs l) = _
  rw [stripBoth_id l (fun c hc => digit_not_pyWs (List.all_eq_true.1 hd c hc))]
  exact pyIntCore_digits l hne hd

/-- `digitsToNat` of a singleton. -/
theorem digitsToNat_one (c : Char) : digitsToNat [c] = digitVal c := by
  simp [digitsToNat]

/-- `digitsToNat` of a two-character string. -/
theorem digitsToNat_two (c1 c2 : Char) :
    digitsToNat [c1, c2] = 10 * digitVal c1 + digitVal c2 := by
  simp [digitsToNat]

/-- Unfolding equation of `natStrAux` with positive fuel. -/
theorem natStrAux_pos (fuel n : Nat) (hf : fuel ≠ 0) :
    natStrAux fuel n =
      if n < 10 then [Nat.digitChar n]
      else natStrAux (fuel - 1) (n / 10) ++ [Nat.digitChar (n % 10)] := by
  cases fuel with
  | zero => exact absurd rfl hf
  | succ f => simp [natStrAux]

/-- `f"{n:02d}"` of `n < 100` is its two-digit (or zero-padded) form. -/
theorem fmt02_two (n : Nat) (h : n < 100) : fmt02 (n : Int) = ⟨twoDigits n⟩ := by
  by_cases h10 : n < 10
  · have e0 : ¬((n : Int) < 0) := by omega
    have e1 : (n : Int) < 10 := by omega
    simp only [fmt02, if_neg e0, if_pos e1, Int.toNat_natCast, twoDigits,
      Nat.div_eq_of_lt h10, Nat.mod_eq_of_lt h10]
    rfl
  · have e0 : ¬((n : Int) < 0) := by omega
    have e1 : ¬((n : Int) < 10) := by omega
    simp only [fmt02, if_neg e0, if_neg e1, Int.toNat_natCast, natStrCL, twoDigits]
    rw [natStrAux_pos (n + 1) n (by omega), if_neg h10,
      natStrAux_pos (n + 1 - 1) (n / 10) (by omega), if_pos (by omega : n / 10 < 10)]
    rfl

/-- All characters of `twoDigits n` are digits. -/
theorem twoDigits_all (n : Nat) (h : n < 100) : (twoDigits n).all isDigitCh = true := by
  simp [twoDigits, isDigitCh_digitChar (by omega : n / 10 < 10),
    isDigitCh_digitChar (by omega : n % 10 < 10)]

/-- `digitsToNat` inverts `twoDigits`. -/
theorem dton_twoDigits (n : Nat) (h : n < 100) : digitsToNat (twoDigits n) = n := by
  rw [twoDigits, digitsToNat_two, digitVal_digitChar (by omega : n / 10 < 10),
    digitVal_digitChar (by omega : n % 10 < 10)]
  omega

/-- `process_timestamp` on a three-component colon string of pure digits:
each component is parsed with `int` and re-formatted with `f"{..:02d}"`. -/
theorem pt_colon3 (l1 l2 l3 : List Char)
    (h1 : l1 ≠ []) (h1d : l1.all isDigitCh = true)
    (h2 : l2 ≠ []) (h2d : l2.all isDigitCh = true)
    (h3 : l3 ≠ []) (h3d : l3.all isDigitCh = true) :
    process_timestamp ⟨l1 ++ ':' :: (l2 ++ ':' :: l3)⟩ =
      some (fmt02 ((digitsToNat l1 : Nat) : Int) ++ ":" ++
        fmt02 ((digitsToNat l2 : Nat) : Int) ++ ":" ++
        fmt02 ((digitsToNat l3 : Nat) : Int)) := by
  have hd1 := List.all_eq_true.1 h1d
  have hd2 := List.all_eq_true.1 h2d
  have hd3 := List.all_eq_true.1 h3d
  have hne : (⟨l1 ++ ':' :: (l2 ++ ':' :: l3)⟩ : String) ≠ "" := by
    intro e
    have hdata : l1 ++ ':' :: (l2 ++ ':' :: l3) = [] := congrArg String.data e
    rcases List.append_eq_nil.1 hdata with ⟨_, hcons⟩
    exact List.cons_ne_nil _ _ hcons
  have hstrip : pyStripBrackets ⟨l1 ++ ':' :: (l2 ++ ':' :: l3)⟩ =
      ⟨l1 ++ ':' :: (l2 ++ ':' :: l3)⟩ := by
    unfold pyStripBrackets
    show (⟨stripBoth isBr (l1 ++ ':' :: (l2 ++ ':' :: l3))⟩ : String) = _
    rw [stripBoth_id]
    intro c hc
    rcases List.mem_append.1 hc with hc1 | hc1
    · exact digit_not_isBr (hd1 c hc1)
    · rcases List.mem_cons.1 hc1 with rfl | hc2
      · rfl
      · rcases List.mem_append.1 hc2 with hc3 | hc3
        · exact digit_not_isBr (hd2 c hc3)
        · rcases List.mem_cons.1 hc3 with rfl | hc4
          · rfl
          · exact digit_not_isBr (hd3 c hc4)
  have hcolon : charIn ':' (⟨l1 ++ ':' :: (l2 ++ ':' :: l3)⟩ : String).data = true :=
    charIn_append ':' l1 (l2 ++ ':' :: l3)
  have hsplit : pySplit ':' ⟨l1 ++ ':' :: (l2 ++ ':' :: l3)⟩ =
      [⟨l1⟩, ⟨l2⟩, ⟨l3⟩] := by
    unfold pySplit
    show (splitChar ':' (l1 ++ ':' :: (l2 ++ ':' :: l3))).map _ = _
    rw [splitChar_append ':' l1 _ (fun c hc => digit_ne_colon (hd1 c hc)),
      splitChar_append ':' l2 _ (fun c hc => digit_ne_colon (hd2 c hc)),
      splitChar_no_sep ':' l3 (fun c hc => digit_ne_colon (hd3 c hc))]
    rfl
  simp only [process_timestamp, if_neg hne, hstrip, hcolon, if_true, hsplit,
    pyInt_digits l1 h1 h1d, pyInt_digits l2 h2 h2d, pyInt_digits l3 h3 h3d]

/-- C9: on every valid canonical `"H:MM:SS"` timestamp, `process_timestamp`
is idempotent — the first application zero-pads the hour, and applying it
to its own output returns the output unchanged, so
`normalize (normalize x) = normalize x`. -/
theorem C9_idempotent (h m s : Nat) (hh : h < 10) (hm : m < 60) (hs : s < 60) :
    process_timestamp (canonHMS h m s) = some (canonHHMMSS h m s) ∧
      process_timestamp (canonHHMMSS h m s) = some (canonHHMMSS h m s) := by
  have hm100 : m < 100 := by omega
  have hs100 : s < 100 := by omega
  have htm := twoDigits_all m hm100
  have hts := twoDigits_all s hs100
  have htmne : twoDigits m ≠ [] := by simp [twoDigits]
  have htsne : twoDigits s ≠ [] := by simp [twoDigits]
  have hrhs : fmt02 ((h : Nat) : Int) ++ ":" ++ fmt02 ((m : Nat) : Int) ++ ":" ++
      fmt02 ((s : Nat) : Int) = canonHHMMSS h m s := by
    rw [fmt02_two h (by omega), fmt02_two m hm100, fmt02_two s hs100]
    have e1 : twoDigits h = ['0', Nat.digitChar h] := by
      rw [twoDigits, Nat.div_eq_of_lt hh, Nat.mod_eq_of_lt hh]
      rfl
    rw [e1]
    simp only [colon_str, strMk_append]
    exact congrArg String.mk (by simp)
  constructor
  · have hp := pt_colon3 [Nat.digitChar h] (twoDigits m) (twoDigits s)
      (by simp) (by simp [isDigitCh_digitChar hh]) htmne htm htsne hts
    have hc : canonHMS h m s =
        ⟨[Nat.digitChar h] ++ ':' :: (twoDigits m ++ ':' :: twoDigits s)⟩ := rfl
    rw [hc, hp, digitsToNat_one, digitVal_digitChar hh, dton_twoDigits m hm100,
      dton_twoDigits s hs100, hrhs]
  · have hall : (['0', Nat.digitChar h] : List Char).all isDigitCh = true := by
      simp only [List.all_cons, List.all_nil, isDigitCh_digitChar hh, Bool.and_true]
      decide
    have hp := pt_colon3 ['0', Nat.digitChar h] (twoDigits m) (twoDigits s)
      (by simp) hall htmne htm htsne hts
    have e2 : digitsToNat ['0', Nat.digitChar h] = h := by
      rw [digitsToNat_two, digitVal_digitChar hh]
      have e0 : digitVal '0' = 0 := rfl
      rw [e0]
      omega
    have hc : canonHHMMSS h m s =
        ⟨['0', Nat.digitChar h] ++ ':' :: (twoDigits m ++ ':' :: twoDigits s)⟩ := rfl
    rw [hc, hp, e2, dton_twoDigits m hm100, dton_twoDigits s hs100, hrhs]
    exact congrArg some hc

/-- C9 witness: the spec's own example `"1:22:18"`. -/
theorem C9_witness :
    process_timestamp "1:22:18" = some "01:22:18" ∧
      process_timestamp "01:22:18" = some "01:22:18" := by
  have h9 := C9_idempotent 1 22 18 (by omega) (by omega) (by omega)
  have e1 : canonHMS 1 22 18 = "1:22:18" := by decide
  have e2 : canonHHMMSS 1 22 18 = "01:22:18" := by decide
  rw [e1, e2] at h9
  exact h9
